import Mathlib

/-!
Verification development for the Pentagon kernel runtime: a shallow
embedding of the managed heap, the on-the-fly garbage collector and the
scheduler semaphore, together with theorems settling the specified
properties against the code.

Sources embedded here:
  - the semaphore wait queue and release (sync/semaphore.c),
  - the GC write barrier, allocation hook and sweep (dotnet/gc/gc.c),
  - the heap size-class selection, heap_find and the two object
    iterators (dotnet/gc/heap.c).

Pointers are modelled as natural-number identifiers, NULL as Option.none,
machine structures as Lean structures, and stateful code as explicit
state passing.  A C execution that dereferences a null pointer or runs
into C undefined behaviour is modelled by an Option.none result of the
embedded function.
-/

namespace Pentagon

/-! ### Semaphore wait queue (semaphore.c)

A waiting_thread_t record.  The thread field of the C struct does not
take part in the queue discipline and is omitted; a waiter is identified
by its record id.  Null pointers are Option.none. -/

structure WaitingThread where
  ticket : Nat
  wait_link : Option Nat
  wait_tail : Option Nat
deriving DecidableEq

/-- The heap of waiting_thread_t records together with the
semaphore.waiters head pointer. -/
structure SemQueue where
  waiters : Option Nat
  store : Nat → WaitingThread

/-- Pointwise update of one waiting_thread_t record in the store. -/
def setWT (st : Nat → WaitingThread) (i : Nat) (w : WaitingThread) : Nat → WaitingThread :=
  fun j => if j = i then w else st j

/-- Embedding of semaphore_queue.  The C code begins with
t = semaphore->waiters and then dereferences t in both branches
(t->ticket, t->wait_tail); when waiters is NULL this is a null
dereference, modelled by none.  The assignments are performed in source
order; note that the FIFO branch ends with the source statement
t->wait_link = NULL, which clears the link field of the current head. -/
def semaphore_queue (q : SemQueue) (wt : Nat) (lifo : Bool) : Option SemQueue :=
  match q.waiters with
  | none => none
  | some t =>
    let st := q.store
    if lifo then
      -- wt->ticket = t->ticket; wt->wait_link = t; wt->wait_tail = t->wait_tail;
      -- if (wt->wait_tail == NULL) wt->wait_tail = t; t->wait_tail = NULL;
      let wtTail : Option Nat :=
        match (st t).wait_tail with
        | none => some t
        | some x => some x
      let st1 := setWT st wt { ticket := (st t).ticket, wait_link := some t, wait_tail := wtTail }
      let st2 := setWT st1 t { st1 t with wait_tail := none }
      some { waiters := some wt, store := st2 }
    else
      -- if (t->wait_tail == NULL) t->wait_link = wt; else t->wait_tail->wait_link = wt;
      -- t->wait_tail = wt; t->wait_link = NULL;
      let st1 :=
        match (st t).wait_tail with
        | none => setWT st t { st t with wait_link := some wt }
        | some tl => setWT st tl { st tl with wait_link := some wt }
      let st2 := setWT st1 t { st1 t with wait_tail := some wt }
      let st3 := setWT st2 t { st2 t with wait_link := none }
      some { waiters := some t, store := st3 }

/-- Embedding of semaphore_dequeue.  Returns the dequeued waiter id and
the new queue; none models the null dereference of wt->wait_link when
the queue is empty. -/
def semaphore_dequeue (q : SemQueue) : Option (Nat × SemQueue) :=
  match q.waiters with
  | none => none
  | some wt =>
    let st := q.store
    match (st wt).wait_link with
    | some t =>
      -- semaphore->waiters = t; t->ticket = wt->ticket;
      let st1 := setWT st t { st t with ticket := (st wt).ticket }
      -- if (t->wait_link != NULL) t->wait_tail = wt->wait_tail; else t->wait_tail = NULL;
      let st2 :=
        if (st1 t).wait_link ≠ none then
          setWT st1 t { st1 t with wait_tail := (st1 wt).wait_tail }
        else
          setWT st1 t { st1 t with wait_tail := none }
      -- wt->wait_link = NULL; wt->wait_tail = NULL; wt->ticket = 0;
      let st3 := setWT st2 wt { st2 wt with wait_link := none }
      let st4 := setWT st3 wt { st3 wt with wait_tail := none }
      let st5 := setWT st4 wt { st4 wt with ticket := 0 }
      some (wt, { waiters := some t, store := st5 })
    | none =>
      let st1 := setWT st wt { st wt with ticket := 0 }
      some (wt, { waiters := none, store := st1 })

/-- A fresh waiting_thread_t record as handed out by the waiter pool. -/
def freshWT : WaitingThread := { ticket := 0, wait_link := none, wait_tail := none }

/-- A semaphore wait queue with no waiters. -/
def emptySemQueue : SemQueue := { waiters := none, store := fun _ => freshWT }

/-- A semaphore wait queue holding the single waiter with id 1. -/
def singleSemQueue : SemQueue := { waiters := some 1, store := fun _ => freshWT }

/-- C10.  Enqueueing the first waiter into an empty wait queue: the
source dereferences the null head t in both the LIFO and the FIFO
branch, modelled by a none result, so the operation is not well-defined. -/
theorem semaphore_queue_empty_null_deref :
    semaphore_queue emptySemQueue 1 false = none ∧
    semaphore_queue emptySemQueue 1 true = none := by
  exact ⟨rfl, rfl⟩

/-- C7.  Queue discipline on a queue holding the single waiter 1.
FIFO: enqueueing waiter 2 and then dequeueing returns waiter 1 but
leaves the queue empty, because the FIFO branch of semaphore_queue ends
with t->wait_link = NULL and thereby disconnects the head from the list;
waiter 2 is lost and a further dequeue is a null dereference.  LIFO:
enqueueing waiter 2 and dequeueing twice returns 2 and then 1 as
expected. -/
theorem semaphore_fifo_loses_second_waiter :
    ((semaphore_queue singleSemQueue 2 false).bind (fun q1 =>
      (semaphore_dequeue q1).map (fun p => (p.1, p.2.waiters))) = some (1, none)) ∧
    ((semaphore_queue singleSemQueue 2 false).bind (fun q1 =>
      (semaphore_dequeue q1).bind (fun p => semaphore_dequeue p.2)) = none) ∧
    ((semaphore_queue singleSemQueue 2 true).bind (fun q1 =>
      (semaphore_dequeue q1).bind (fun p1 =>
        (semaphore_dequeue p1.2).map (fun p2 => (p1.1, p2.1, p2.2.waiters)))) =
      some (2, 1, none)) := by
  refine ⟨?_, ?_, ?_⟩ <;> rfl

/-! ### Semaphore value and release (semaphore.c) -/

/-- The semaphore proper: the permit counter, the waiter counter and the
wait queue.  The spinlock serialises the embedded sequential execution. -/
structure Semaphore where
  value : Nat
  nwait : Nat
  q : SemQueue

/-- Embedding of semaphore_can_acquire: the CAS retry loop is
deterministic in a sequential execution, so a positive value is
decremented and reported as success.  Returns the new value and the
boolean result. -/
def semaphore_can_acquire (value : Nat) : Nat × Bool :=
  if value = 0 then (value, false) else (value - 1, true)

/-- Set the ticket field of one waiter record of a queue. -/
def setTicket (q : SemQueue) (wt : Nat) (v : Nat) : SemQueue :=
  { q with store := setWT q.store wt { q.store wt with ticket := v } }

/-- Embedding of semaphore_release.  Returns none when the dequeue
dereferences a null head, otherwise the new semaphore and the readied
waiter (none when no waiter was woken).  The source condition
(handoff & semaphore_can_acquire(semaphore)) uses the bitwise AND, so
semaphore_can_acquire runs, and consumes a permit when one is
available, for both values of handoff; only the ticket assignment is
conditional on the conjunction. -/
def semaphore_release (s : Semaphore) (handoff : Bool) : Option (Semaphore × Option Nat) :=
  let value1 := s.value + 1
  if s.nwait = 0 then
    some ({ s with value := value1 }, none)
  else
    -- spinlock_lock, then the nwait recheck, which a sequential
    -- execution sees unchanged
    if s.nwait = 0 then
      some ({ s with value := value1 }, none)
    else
      match semaphore_dequeue s.q with
      | none => none
      | some (wt, q1) =>
        let nwait1 := s.nwait - 1
        let ca := semaphore_can_acquire value1
        let q2 := if handoff && ca.2 then setTicket q1 wt 1 else q1
        -- scheduler_ready_thread(wt->thread), then scheduler_yield()
        -- when wt->ticket == 1
        some ({ value := ca.1, nwait := nwait1, q := q2 }, some wt)

/-- C6.  Releasing with handoff = false on a semaphore with value 0 and
one queued waiter: the waiter 1 is dequeued and readied with its ticket
left at 0, but the resulting value is 0 rather than 1, because the
bitwise AND evaluates semaphore_can_acquire and consumes the freshly
added permit even though handoff is false. -/
theorem semaphore_release_no_handoff_consumes_permit :
    (semaphore_release { value := 0, nwait := 1, q := singleSemQueue } false).map
      (fun p => (p.1.value, p.1.nwait, (p.1.q.store 1).ticket, p.2)) =
    some (0, 0, 0, some 1) := by
  rfl

/-! ### GC write barrier and allocation hook (gc.c)

Colours are integer identifiers: the source initialises
m_color_black = 0 and m_color_white = 1 and swaps them each cycle. -/

/-- Modelled from the spec: COLOR_BLUE marks an unallocated slot and is
distinct from the black/white pair; its numeric value lives in a header
that is not under src/, so any value outside the pair serves. -/
def COLOR_BLUE : Nat := 2

/-- The GC-relevant part of a System_Object header together with its
managed fields, read and written by offset.  The log pointer is an
index into the owning thread log buffer (none models NULL). -/
structure GCObject where
  color : Nat
  log_pointer : Option Nat
  fields : Nat → Option Nat

/-- The per-thread gc_local_data of the thread control block. -/
structure GCLocalData where
  trace_on : Bool
  snoop : Bool
  alloc_color : Nat
  buffer : List (Option Nat)
  snooped : List Nat

/-- Embedding of gc_update, executed with preemption disabled.  The
source guards the logging block with the condition (o->log_pointer),
which is true only for a non-null log pointer, and the block then
re-checks o->log_pointer == NULL before publishing; the managed-pointer
copy loop is commented out in the source, so committing the buffer
keeps its length (arrsetlen to the current length). -/
def gc_update (white : Nat) (gcl : GCLocalData) (o : GCObject) (off : Nat)
    (newv : Option Nat) : GCLocalData × GCObject :=
  let step1 : GCLocalData × GCObject :=
    if gcl.trace_on ∧ o.color = white then
      if o.log_pointer ≠ none then
        let temp_pos := gcl.buffer.length
        if o.log_pointer = none then
          ({ gcl with buffer := gcl.buffer.take temp_pos },
           { o with log_pointer := some temp_pos })
        else
          (gcl, o)
      else
        (gcl, o)
    else
      (gcl, o)
  let gcl1 := step1.1
  let o1 := step1.2
  -- write_field(o, offset, new)
  let o2 := { o1 with fields := fun i => if i = off then newv else o1.fields i }
  -- if (GCL->snoop && new != NULL) record new in the snooped set
  let gcl2 :=
    if gcl1.snoop ∧ newv ≠ none then
      { gcl1 with snooped := (newv.getD 0) :: gcl1.snooped }
    else
      gcl1
  (gcl2, o2)

/-- C1.  The write barrier never publishes a log pointer: for every
thread state, object, offset and stored value, the object after
gc_update carries exactly the log pointer it had before.  In particular
a white object with a null log pointer mutated under trace_on still has
a null log pointer afterwards, because the source condition
(o->log_pointer) skips the logging block precisely in that case, and
inside the block the double check o->log_pointer == NULL can never
succeed. -/
theorem gc_update_never_publishes_log_pointer (white : Nat) (gcl : GCLocalData)
    (o : GCObject) (off : Nat) (newv : Option Nat) :
    ((gc_update white gcl o off newv).2).log_pointer = o.log_pointer := by
  unfold gc_update
  by_cases h1 : gcl.trace_on ∧ o.color = white
  · by_cases h2 : o.log_pointer ≠ none
    · simp [h1, h2]
    · simp [h1, h2]
  · simp [h1]

/-- Embedding of gc_new, with the heap_alloc result passed in and the
global all-objects list modelled as the list of object ids in next-link
order (the CAS push succeeds in a sequential execution).  The source
performs o->next = NULL, o->color = GCL->alloc_color and o->Type = type
with no null check on o; a none heap_alloc result therefore makes the
very first store a write through the null pointer, modelled by a none
result. -/
def gc_new (allocated : Option Nat) (alloc_color : Nat) (heap : Nat → GCObject)
    (all_objects : List Nat) : Option ((Nat → GCObject) × List Nat × Nat) :=
  match allocated with
  | none => none
  | some o =>
    let heap1 := fun j => if j = o then { heap o with color := alloc_color } else heap j
    some (heap1, o :: all_objects, o)

/-- C9.  When heap_alloc reports out of memory by returning null,
gc_new does not surface the null result: it immediately stores through
it (o->next = NULL), modelled by the none result of the embedding, for
every allocation colour, heap and all-objects list. -/
theorem gc_new_stores_through_null (alloc_color : Nat) (heap : Nat → GCObject)
    (all_objects : List Nat) :
    gc_new none alloc_color heap all_objects = none := by
  rfl

/-! ### Sweep (gc.c)

The all-objects singly linked list is modelled as the Lean list of its
nodes in next-link order; a node carries its identity and colour.
Concurrent gc_new pushes onto the list head are the only interference
the source tolerates, and they matter exactly at the head
compare-and-swap: the sweep model therefore takes a schedule of pushed
segments, one consumed per head CAS attempt.  An empty segment means
the CAS succeeds; a non-empty segment is the chain of nodes pushed
since the head was read, so the CAS fails and the source walks from the
new head to the swept node to re-find its predecessor, whose next
pointer then bypasses the node. -/

structure SweptObject where
  id : Nat
  color : Nat
deriving DecidableEq

/-- The unlink recolours the node: swept->color = COLOR_BLUE. -/
def recolor_blue (o : SweptObject) : SweptObject := { o with color := COLOR_BLUE }

/-- One pass of the sweep loop.  Arguments: the pending push segments,
the linked prefix of the list before the node under inspection (whose
last element is the local variable last; an empty prefix is
last == NULL), and the remainder of the list starting at swept.
Returns the final linked list and the unlinked nodes in sweep order. -/
def sweepGo (white : Nat) :
    List (List SweptObject) → List SweptObject → List SweptObject →
    List SweptObject × List SweptObject
  | _, pfx, [] => (pfx, [])
  | pushes, pfx, o :: tl =>
    if o.color = white then
      match pfx, pushes with
      | [], [] =>
        -- head CAS with no interference: succeeds, last stays NULL
        let r := sweepGo white [] [] tl
        (r.1, recolor_blue o :: r.2)
      | [], p :: ps =>
        match p with
        | [] =>
          -- head CAS with no pushes in this window: succeeds
          let r := sweepGo white ps [] tl
          (r.1, recolor_blue o :: r.2)
        | _ :: _ =>
          -- head CAS fails: re-find walks the pushed chain p down to the
          -- swept node, last becomes the final element of p, and
          -- last->next = swept->next unlinks the node
          let r := sweepGo white ps p tl
          (r.1, recolor_blue o :: r.2)
      | _ :: _, _ =>
        -- last != NULL: last->next = swept->next
        let r := sweepGo white pushes pfx tl
        (r.1, recolor_blue o :: r.2)
    else
      -- still alive: last = swept
      let r := sweepGo white pushes (pfx ++ [o]) tl
      (r.1, r.2)

/-- Embedding of the sweep list walk (the fourth handshake that clears
trace_on precedes it and does not touch the list). -/
def sweep (white : Nat) (pushes : List (List SweptObject))
    (all_objects : List SweptObject) : List SweptObject × List SweptObject :=
  sweepGo white pushes [] all_objects

theorem sweepGo_freed (white : Nat) :
    ∀ (rest : List SweptObject) (pushes : List (List SweptObject)) (pfx : List SweptObject),
      (sweepGo white pushes pfx rest).2 =
        (rest.filter (fun o => o.color = white)).map recolor_blue := by
  intro rest
  induction rest with
  | nil => intro pushes pfx; simp [sweepGo]
  | cons o tl ih =>
    intro pushes pfx
    by_cases h : o.color = white
    · match pfx, pushes with
      | [], [] => simp [sweepGo, h, ih]
      | [], [] :: ps => simp [sweepGo, h, ih]
      | [], (x :: xs) :: ps => simp [sweepGo, h, ih]
      | q :: qs, pushes => simp [sweepGo, h, ih]
    · simp [sweepGo, h, ih]

theorem sweepGo_pfx_subset (white : Nat) :
    ∀ (rest : List SweptObject) (pushes : List (List SweptObject)) (pfx : List SweptObject),
      ∀ x ∈ pfx, x ∈ (sweepGo white pushes pfx rest).1 := by
  intro rest
  induction rest with
  | nil => intro pushes pfx x hx; simpa [sweepGo] using hx
  | cons o tl ih =>
    intro pushes pfx x hx
    by_cases h : o.color = white
    · match pfx, hx with
      | q :: qs, hx =>
        simpa [sweepGo, h] using ih pushes (q :: qs) x hx
    · have : x ∈ pfx ++ [o] := by simp [hx]
      simpa [sweepGo, h] using ih pushes (pfx ++ [o]) x this

theorem sweepGo_remaining_mem (white : Nat) :
    ∀ (rest : List SweptObject) (pushes : List (List SweptObject)) (pfx : List SweptObject),
      ∀ x ∈ (sweepGo white pushes pfx rest).1,
        x ∈ pfx ∨ (∃ p ∈ pushes, x ∈ p) ∨ (x ∈ rest ∧ x.color ≠ white) := by
  intro rest
  induction rest with
  | nil =>
    intro pushes pfx x hx
    exact Or.inl (by simpa [sweepGo] using hx)
  | cons o tl ih =>
    intro pushes pfx x hx
    by_cases h : o.color = white
    · match pfx, pushes with
      | [], [] =>
        rcases ih [] [] x (by simpa [sweepGo, h] using hx) with h1 | h1 | h1
        · exact Or.inl h1
        · exact Or.inr (Or.inl h1)
        · exact Or.inr (Or.inr ⟨List.mem_cons_of_mem _ h1.1, h1.2⟩)
      | [], [] :: ps =>
        rcases ih ps [] x (by simpa [sweepGo, h] using hx) with h1 | h1 | h1
        · exact Or.inl h1
        · rcases h1 with ⟨p, hp, hxp⟩
          exact Or.inr (Or.inl ⟨p, List.mem_cons_of_mem _ hp, hxp⟩)
        · exact Or.inr (Or.inr ⟨List.mem_cons_of_mem _ h1.1, h1.2⟩)
      | [], (y :: ys) :: ps =>
        rcases ih ps (y :: ys) x (by simpa [sweepGo, h] using hx) with h1 | h1 | h1
        · exact Or.inr (Or.inl ⟨y :: ys, List.mem_cons_self _ _, h1⟩)
        · rcases h1 with ⟨p, hp, hxp⟩
          exact Or.inr (Or.inl ⟨p, List.mem_cons_of_mem _ hp, hxp⟩)
        · exact Or.inr (Or.inr ⟨List.mem_cons_of_mem _ h1.1, h1.2⟩)
      | q :: qs, pushes =>
        rcases ih pushes (q :: qs) x (by simpa [sweepGo, h] using hx) with h1 | h1 | h1
        · exact Or.inl h1
        · exact Or.inr (Or.inl h1)
        · exact Or.inr (Or.inr ⟨List.mem_cons_of_mem _ h1.1, h1.2⟩)
    · rcases ih pushes (pfx ++ [o]) x (by simpa [sweepGo, h] using hx) with h1 | h1 | h1
      · rcases List.mem_append.mp h1 with h2 | h2
        · exact Or.inl h2
        · have hxo : x = o := by simpa using h2
          exact Or.inr (Or.inr ⟨by simp [hxo], by simpa [hxo] using h⟩)
      · exact Or.inr (Or.inl h1)
      · exact Or.inr (Or.inr ⟨List.mem_cons_of_mem _ h1.1, h1.2⟩)

theorem sweepGo_keeps_nonwhite (white : Nat) :
    ∀ (rest : List SweptObject) (pushes : List (List SweptObject)) (pfx : List SweptObject),
      ∀ x ∈ rest, x.color ≠ white → x ∈ (sweepGo white pushes pfx rest).1 := by
  intro rest
  induction rest with
  | nil => intro pushes pfx x hx; exact absurd hx (List.not_mem_nil x)
  | cons o tl ih =>
    intro pushes pfx x hx hxc
    by_cases h : o.color = white
    · have hxtl : x ∈ tl := by
        rcases List.mem_cons.mp hx with h1 | h1
        · exact absurd (h1 ▸ h) hxc
        · exact h1
      match pfx, pushes with
      | [], [] => simpa [sweepGo, h] using ih [] [] x hxtl hxc
      | [], [] :: ps => simpa [sweepGo, h] using ih ps [] x hxtl hxc
      | [], (y :: ys) :: ps => simpa [sweepGo, h] using ih ps (y :: ys) x hxtl hxc
      | q :: qs, pushes => simpa [sweepGo, h] using ih pushes (q :: qs) x hxtl hxc
    · rcases List.mem_cons.mp hx with h1 | h1
      · subst h1
        have : x ∈ pfx ++ [x] := by simp
        simpa [sweepGo, h] using sweepGo_pfx_subset white tl pushes (pfx ++ [x]) x this
      · simpa [sweepGo, h] using ih pushes (pfx ++ [o]) x h1 hxc

/-- C2.  The sweep walk, with any schedule of concurrent head pushes
whose nodes are born with a non-white colour: every node remaining on
the all-objects list afterwards has a colour different from the current
white (non-white nodes are left in place), and the unlinked nodes are
exactly the white nodes of the walked list, each recoloured to blue.
The head unlink is the compare-and-swap of sweepGo, falling back to the
predecessor re-find when a push segment makes it fail. -/
theorem sweep_spec (white : Nat) (pushes : List (List SweptObject))
    (l : List SweptObject)
    (hpush : ∀ p ∈ pushes, ∀ x ∈ p, x.color ≠ white) :
    (∀ x ∈ (sweep white pushes l).1, x.color ≠ white) ∧
    ((sweep white pushes l).2 =
      (l.filter (fun o => o.color = white)).map recolor_blue) ∧
    (∀ x ∈ l, x.color ≠ white → x ∈ (sweep white pushes l).1) := by
  refine ⟨?_, ?_, ?_⟩
  · intro x hx
    rcases sweepGo_remaining_mem white l pushes [] x hx with h1 | h1 | h1
    · exact absurd h1 (List.not_mem_nil x)
    · rcases h1 with ⟨p, hp, hxp⟩
      exact hpush p hp x hxp
    · exact h1.2
  · exact sweepGo_freed white l pushes []
  · intro x hx hxc
    exact sweepGo_keeps_nonwhite white l pushes [] x hx hxc

/-- Witness for sweep_spec at a concrete cycle: white = 1, one push
segment holding a black node, and a three-node list. -/
theorem sweep_spec_witness :
    (∀ x ∈ (sweep 1 [[⟨7, 0⟩]] [⟨1, 1⟩, ⟨2, 0⟩, ⟨3, 1⟩]).1, x.color ≠ 1) ∧
    ((sweep 1 [[⟨7, 0⟩]] [⟨1, 1⟩, ⟨2, 0⟩, ⟨3, 1⟩]).2 =
      (([⟨1, 1⟩, ⟨2, 0⟩, ⟨3, 1⟩] : List SweptObject).filter
        (fun o => o.color = 1)).map recolor_blue) ∧
    (∀ x ∈ ([⟨1, 1⟩, ⟨2, 0⟩, ⟨3, 1⟩] : List SweptObject), x.color ≠ 1 →
      x ∈ (sweep 1 [[⟨7, 0⟩]] [⟨1, 1⟩, ⟨2, 0⟩, ⟨3, 1⟩]).1) :=
  sweep_spec 1 [[⟨7, 0⟩]] [⟨1, 1⟩, ⟨2, 0⟩, ⟨3, 1⟩] (by decide)

/-! ### Heap layout constants and page tables (heap.c) -/

/-- Modelled from the spec: the fixed virtual base of the object heap,
one TiB after the direct-map start; the defining header (mem.h) is not
under src/.  The base is 512 GiB aligned, as the pool arithmetic of
heap.c requires; the particular offset within the address space plays
no role in the proved properties, so the direct map is placed at 0. -/
def OBJECT_HEAP_START : Nat := 2 ^ 40

def POOL_COUNT : Nat := 26

def SUBPOOLS_COUNT : Nat := 512

def SIZE_512GB : Nat := 2 ^ 39

def SIZE_1GB : Nat := 2 ^ 30

def SIZE_512MB : Nat := 2 ^ 29

def SIZE_2MB : Nat := 2 ^ 21

def SIZE_4KB : Nat := 2 ^ 12

/-- Modelled from the spec: the heap covers the 26 pools of 512 GiB. -/
def OBJECT_HEAP_END : Nat := OBJECT_HEAP_START + POOL_COUNT * SIZE_512GB

/-- Modelled from the spec: index of the PML4 slot covering an address
under standard x86-64 four-level paging with the flat page-table arrays
that heap.c indexes (it computes pml3i as pml4i * 512 + subpool and
uses it to index PAGE_TABLE_PML3 directly).  All heap addresses here
lie far below 2 ^ 48, so masked 9-bit variants coincide. -/
def PML4_INDEX (a : Nat) : Nat := a / 2 ^ 39

/-- Modelled from the spec: flat PML3 (1 GiB) index of an address. -/
def PML3_INDEX (a : Nat) : Nat := a / 2 ^ 30

/-- Modelled from the spec: flat PML2 (2 MiB) index of an address. -/
def PML2_INDEX (a : Nat) : Nat := a / 2 ^ 21

/-- Modelled from the spec: flat PML1 (4 KiB) index of an address. -/
def PML1_INDEX (a : Nat) : Nat := a / 2 ^ 12

/-- Modelled from the spec: base address of the 1 GiB region of a flat
PML3 index. -/
def PML3_BASE (i : Nat) : Nat := i * 2 ^ 30

/-- Modelled from the spec: base address of the 2 MiB region of a flat
PML2 index (heap.c uses it with PML2 indexes to walk 2 MiB spans). -/
def PML2_BASE (i : Nat) : Nat := i * 2 ^ 21

/-- Modelled from the spec: the usual align-down macro for a positive
power-of-two alignment. -/
def ALIGN_DOWN (x a : Nat) : Nat := x / a * a

/-- The present bits of the three page-table levels the heap consults,
as predicates over flat indexes.  heap_find and the iterators read them
and never modify them. -/
structure PageTables where
  pml3_present : Nat → Bool
  pml2_present : Nat → Bool
  pml1_present : Nat → Bool

/-- Embedding of calc_object_size: the source computes
2 << (4 + poolidx), that is 2 ^ (poolidx + 5), for the pool holding the
address. -/
def calc_object_size (obj : Nat) : Nat :=
  let poolidx := (obj - OBJECT_HEAP_START) / SIZE_512GB
  2 <<< (4 + poolidx)

/-- Embedding of heap_find: inside the heap range, compute the size of
the pool, require the PML3 and PML2 entries covering the pointer to be
present (and the PML1 entry too when the size is below 2 MiB), and
align the pointer down to the size.  The source never reads the object
header, so the colour of the slot plays no part. -/
def heap_find (pt : PageTables) (ptr : Nat) : Option Nat :=
  if OBJECT_HEAP_START ≤ ptr ∧ ptr < OBJECT_HEAP_END then
    let size := calc_object_size ptr
    if ¬ pt.pml3_present (PML3_INDEX ptr) then none
    else if ¬ pt.pml2_present (PML2_INDEX ptr) then none
    else if size < SIZE_2MB ∧ ¬ pt.pml1_present (PML1_INDEX ptr) then none
    else some (ALIGN_DOWN ptr size)
  else none

/-- Page tables with every entry present. -/
def allPresent : PageTables :=
  { pml3_present := fun _ => true
    pml2_present := fun _ => true
    pml1_present := fun _ => true }

/-- C3.  A pointer 16 bytes into pool 0 with all pages present:
heap_find returns the heap base, yet the pointer does not lie within
size-class bytes (2 ^ (0 + 4) = 16) of it, because calc_object_size
computes 2 << (4 + poolidx) = 32, twice the documented class of the
pool; the pointer in fact lies inside the neighbouring 16-byte slot.
Outside the heap range, and on a non-present page, heap_find does
return none. -/
theorem heap_find_wrong_size_class :
    heap_find allPresent (OBJECT_HEAP_START + 16) = some OBJECT_HEAP_START ∧
    ¬ (OBJECT_HEAP_START + 16 < OBJECT_HEAP_START + 2 ^ (0 + 4)) ∧
    heap_find allPresent (OBJECT_HEAP_START - 1) = none ∧
    heap_find
      { allPresent with pml2_present := fun _ => false }
      (OBJECT_HEAP_START + 16) = none := by
  refine ⟨by decide, by decide, by decide, by decide⟩

/-! ### Size-class selection in heap_alloc (heap.c) -/

/-- Base-two logarithm by structural recursion on a fuel argument, so
that it reduces inside the kernel; 64 units of fuel cover every 64-bit
value. -/
def log2Fuel : Nat → Nat → Nat
  | 0, _ => 0
  | fuel + 1, n => if n ≥ 2 then log2Fuel fuel (n / 2) + 1 else 0

/-- Embedding of __builtin_clzll on a 64-bit value: undefined (none) at
0, otherwise the number of leading zero bits. -/
def clzll (x : Nat) : Option Nat :=
  if x = 0 then none else some (63 - log2Fuel 64 x)

/-- Embedding of the prologue of heap_alloc: the oversize check
(size > SIZE_512MB returns NULL before any page-table work, reported as
some none), then aligned_size = 1ull << (64 - clzll(size - 1)) and
pool_idx = (64 - clzll(aligned_size - 1)) - 4, with size - 1 taken in
64-bit arithmetic.  A clzll argument of 0 or a shift amount of 64 is C
undefined behaviour, reported as none overall. -/
def heap_alloc_size_class (size : Nat) : Option (Option Int) :=
  if size > SIZE_512MB then
    some none
  else
    match clzll ((size + (2 ^ 64 - 1)) % 2 ^ 64) with
    | none => none
    | some c =>
      if 64 - c ≥ 64 then none
      else
        let aligned_size := 1 <<< (64 - c)
        match clzll ((aligned_size + (2 ^ 64 - 1)) % 2 ^ 64) with
        | none => none
        | some c2 => some (some (((64 : Int) - c2) - 4))

/-- C8.  Size-class selection at the boundaries: size 0 runs into a
64-bit shift of 64 (undefined), size 1 into clzll(0) (undefined), sizes
up to 8 select the negative pool index -1 instead of pool 0 (the pool
table starts at 16 bytes, so pool -1 is the PML4 slot below the heap),
sizes 9 to 16 select pool 0, 512 MiB selects pool 25, and any larger
size returns NULL before touching page tables. -/
theorem heap_alloc_size_class_boundaries :
    heap_alloc_size_class 0 = none ∧
    heap_alloc_size_class 1 = none ∧
    heap_alloc_size_class 8 = some (some (-1)) ∧
    heap_alloc_size_class 9 = some (some 0) ∧
    heap_alloc_size_class 16 = some (some 0) ∧
    heap_alloc_size_class 17 = some (some 1) ∧
    heap_alloc_size_class SIZE_512MB = some (some 25) ∧
    heap_alloc_size_class (SIZE_512MB + 1) = some none := by
  refine ⟨by decide, by decide, by decide, by decide, by decide, by decide, by decide, by decide⟩

/-! ### Object iteration (heap.c)

Both iterators are embedded with the callback collecting the visited
object addresses into a list, in visit order.  The region spinlocks
serialise the walk and play no further part.  Note that both loops
compute pml3i as pml4i << 9 without adding subpool_idx, exactly as the
source does, so all 512 subpool iterations of a pool examine the index
of subpool 0. -/

/-- The addresses ptr = lo, lo + step, ... while ptr < hi, as iterated
by the object loops (step is positive in every use). -/
def objRange (lo hi step : Nat) : List Nat :=
  (List.range ((hi - lo + step - 1) / step)).map (fun i => lo + i * step)

/-- heap_iterate_objects, innermost loop for size classes below 4 KiB:
the source walks ptr from PML2_BASE(pml1i) over one 4 KiB page for each
present PML1 entry. -/
def iterObjSmall (pt : PageTables) (sz : Nat) : List Nat → List Nat
  | [] => []
  | i :: rest =>
    (if ¬ pt.pml1_present i then []
     else objRange (PML2_BASE i) (PML2_BASE i + SIZE_4KB) sz) ++ iterObjSmall pt sz rest

/-- heap_iterate_objects, PML2 loop for size classes below 2 MiB. -/
def iterObjMid (pt : PageTables) (sz : Nat) : List Nat → List Nat
  | [] => []
  | i :: rest =>
    (if ¬ pt.pml2_present i then []
     else if sz ≥ SIZE_4KB then
       (objRange (PML2_BASE i) (PML2_BASE i + SIZE_2MB) sz).filter
         (fun ptr => pt.pml1_present (PML1_INDEX ptr))
     else
       iterObjSmall pt sz ((List.range 512).map (fun k => (i <<< 9) + k)))
    ++ iterObjMid pt sz rest

/-- heap_iterate_objects, one iteration per subpool index; the source
computes pml3i = pml4i << 9 for every iteration. -/
def iterObjSubpools (pt : PageTables) (sz pml4i : Nat) : List Nat → List Nat
  | [] => []
  | _ :: rest =>
    let pml3i := pml4i <<< 9
    (if ¬ pt.pml3_present pml3i then []
     else if sz ≥ SIZE_2MB then
       (objRange (PML3_BASE pml3i) (PML3_BASE pml3i + SIZE_1GB) sz).filter
         (fun ptr => pt.pml2_present (PML2_INDEX ptr))
     else
       iterObjMid pt sz ((List.range 512).map (fun j => (pml3i <<< 9) + j)))
    ++ iterObjSubpools pt sz pml4i rest

/-- heap_iterate_objects, outer pool loop with
pool_object_size = 2 << (4 + pool_idx). -/
def iterObjPools (pt : PageTables) : List Nat → List Nat
  | [] => []
  | p :: rest =>
    iterObjSubpools pt (2 <<< (4 + p)) (p + PML4_INDEX OBJECT_HEAP_START)
      (List.range SUBPOOLS_COUNT)
    ++ iterObjPools pt rest

/-- Embedding of heap_iterate_objects as the list of visited object
addresses. -/
def heap_iterate_objects_visited (pt : PageTables) : List Nat :=
  iterObjPools pt (List.range POOL_COUNT)

/-- The base address of subpool 1 of pool 17: a 4 MiB-class slot. -/
def subpoolOneSlot : Nat := OBJECT_HEAP_START + 17 * SIZE_512GB + SIZE_1GB

/-- Page tables for C5: exactly the pages backing subpoolOneSlot are
present (its PML3 entry in subpool 1 of pool 17 and its PML2 entry). -/
def subpoolOnePT : PageTables :=
  { pml3_present := fun i => i = PML3_INDEX subpoolOneSlot
    pml2_present := fun i => i = PML2_INDEX subpoolOneSlot
    pml1_present := fun _ => false }

theorem iterObjSubpools_skip (pt : PageTables) (sz pml4i : Nat)
    (h : pt.pml3_present (pml4i <<< 9) = false) :
    ∀ subs : List Nat, iterObjSubpools pt sz pml4i subs = [] := by
  intro subs
  induction subs with
  | nil => rfl
  | cons s rest ih => simp [iterObjSubpools, h, ih]

theorem iterObjPools_nil (pt : PageTables) :
    ∀ pools : List Nat,
      (∀ p ∈ pools, pt.pml3_present ((p + PML4_INDEX OBJECT_HEAP_START) <<< 9) = false) →
      iterObjPools pt pools = [] := by
  intro pools
  induction pools with
  | nil => intro _; rfl
  | cons p rest ih =>
    intro h
    have hp := h p (List.mem_cons_self p rest)
    have hr := ih (fun q hq => h q (List.mem_cons_of_mem _ hq))
    simp [iterObjPools, iterObjSubpools_skip pt _ _ hp, hr]

/-- C5.  A slot whose backing pages are present but which lies in
subpool 1 is never visited: heap_iterate_objects computes
pml3i = pml4i << 9 without adding subpool_idx, so only subpool 0 of
each pool is ever examined and the whole iteration visits nothing at
all, although the slot subpoolOneSlot is present and live-capable. -/
theorem heap_iterate_objects_misses_subpool_one :
    heap_iterate_objects_visited subpoolOnePT = [] ∧
    subpoolOnePT.pml3_present (PML3_INDEX subpoolOneSlot) = true ∧
    subpoolOnePT.pml2_present (PML2_INDEX subpoolOneSlot) = true ∧
    OBJECT_HEAP_START ≤ subpoolOneSlot ∧ subpoolOneSlot < OBJECT_HEAP_END := by
  refine ⟨iterObjPools_nil subpoolOnePT (List.range POOL_COUNT) (by decide),
    by decide, by decide, by decide, by decide⟩

/-! ### Dirty-object iteration (heap.c)

The dirty bits of the two relevant levels are mutable state; presence
bits are read-only for this walk.  For size classes of 2 MiB and above
the source tests PAGE_TABLE_PML2[pml2i].dirty but then clears
PAGE_TABLE_PML1[pml2i].dirty, an update of the other array, embedded
verbatim below. -/

structure DirtyBits where
  pml1_dirty : Nat → Bool
  pml2_dirty : Nat → Bool

/-- The store PAGE_TABLE_PML1[i].dirty = 0. -/
def clearPml1Dirty (d : DirtyBits) (i : Nat) : DirtyBits :=
  { d with pml1_dirty := fun j => if j = i then false else d.pml1_dirty j }

/-- heap_iterate_dirty_objects, PML1 loop for size classes below
2 MiB: visit the objects covering each present and dirty 4 KiB page,
then clear its PML1 dirty bit. -/
def dirtySmall (pt : PageTables) (sz : Nat) : List Nat → DirtyBits → List Nat × DirtyBits
  | [], d => ([], d)
  | i :: rest, d =>
    if ¬ pt.pml1_present i then dirtySmall pt sz rest d
    else if ¬ d.pml1_dirty i then dirtySmall pt sz rest d
    else
      let v := objRange (ALIGN_DOWN (i <<< 12) sz) ((i + 1) <<< 12) sz
      let r := dirtySmall pt sz rest (clearPml1Dirty d i)
      (v ++ r.1, r.2)

/-- heap_iterate_dirty_objects, PML2 loop: for size classes of 2 MiB
and above, visit the objects of each present PML2 entry whose PML2
dirty bit is set, and then perform the source store
PAGE_TABLE_PML1[pml2i].dirty = 0; below 2 MiB, descend into the PML1
loop. -/
def dirtyPml2 (pt : PageTables) (sz : Nat) : List Nat → DirtyBits → List Nat × DirtyBits
  | [], d => ([], d)
  | i :: rest, d =>
    if ¬ pt.pml2_present i then dirtyPml2 pt sz rest d
    else if sz ≥ SIZE_2MB then
      if ¬ d.pml2_dirty i then dirtyPml2 pt sz rest d
      else
        let v := objRange (ALIGN_DOWN (i <<< 12) sz) ((i + 1) <<< 12) sz
        let r := dirtyPml2 pt sz rest (clearPml1Dirty d i)
        (v ++ r.1, r.2)
    else
      let q := dirtySmall pt sz ((List.range 512).map (fun k => (i <<< 9) + k)) d
      let r := dirtyPml2 pt sz rest q.2
      (q.1 ++ r.1, r.2)

/-- heap_iterate_dirty_objects, one iteration per subpool index; as in
the plain iterator the source computes pml3i = pml4i << 9, ignoring
subpool_idx. -/
def dirtySubpools (pt : PageTables) (sz pml4i : Nat) : List Nat → DirtyBits → List Nat × DirtyBits
  | [], d => ([], d)
  | _ :: rest, d =>
    let pml3i := pml4i <<< 9
    if ¬ pt.pml3_present pml3i then dirtySubpools pt sz pml4i rest d
    else
      let q := dirtyPml2 pt sz ((List.range 512).map (fun j => (pml3i <<< 9) + j)) d
      let r := dirtySubpools pt sz pml4i rest q.2
      (q.1 ++ r.1, r.2)

/-- heap_iterate_dirty_objects, outer pool loop. -/
def dirtyPools (pt : PageTables) : List Nat → DirtyBits → List Nat × DirtyBits
  | [], d => ([], d)
  | p :: rest, d =>
    let q := dirtySubpools pt (2 <<< (4 + p)) (p + PML4_INDEX OBJECT_HEAP_START)
      (List.range SUBPOOLS_COUNT) d
    let r := dirtyPools pt rest q.2
    (q.1 ++ r.1, r.2)

/-- Embedding of heap_iterate_dirty_objects: the visited object
addresses and the dirty bits after the walk. -/
def heap_iterate_dirty_objects (pt : PageTables) (d : DirtyBits) : List Nat × DirtyBits :=
  dirtyPools pt (List.range POOL_COUNT) d

/-- A dirty 2 MiB page: the first PML2 entry of subpool 0 of pool 17
(a 4 MiB size class, so the PML2 dirty bit is the authoritative one). -/
def dirtyPml2Index : Nat := PML2_INDEX (OBJECT_HEAP_START + 17 * SIZE_512GB)

/-- Page tables for C4: subpool 0 of pool 17 is present together with
the single PML2 entry dirtyPml2Index. -/
def dirtyPagePT : PageTables :=
  { pml3_present := fun i => i = PML3_INDEX (OBJECT_HEAP_START + 17 * SIZE_512GB)
    pml2_present := fun i => i = dirtyPml2Index
    pml1_present := fun _ => false }

/-- Dirty bits for C4: only the PML2 bit of dirtyPml2Index is set. -/
def dirtyPageBits : DirtyBits :=
  { pml1_dirty := fun _ => false
    pml2_dirty := fun i => i = dirtyPml2Index }

theorem dirtySmall_absent (pt : PageTables) (sz : Nat)
    (h : ∀ i, pt.pml1_present i = false) :
    ∀ (l : List Nat) (d : DirtyBits), dirtySmall pt sz l d = ([], d) := by
  intro l
  induction l with
  | nil => intro d; rfl
  | cons i rest ih => intro d; simp [dirtySmall, h i, ih]

theorem dirtySmall_pml2 (pt : PageTables) (sz : Nat) :
    ∀ (l : List Nat) (d : DirtyBits),
      ((dirtySmall pt sz l d).2).pml2_dirty = d.pml2_dirty := by
  intro l
  induction l with
  | nil => intro d; rfl
  | cons i rest ih =>
    intro d
    by_cases h1 : pt.pml1_present i
    · by_cases h2 : d.pml1_dirty i
      · simp [dirtySmall, h1, h2, ih, clearPml1Dirty]
      · simp [dirtySmall, h1, h2, ih]
    · simp [dirtySmall, h1, ih]

theorem dirtyPml2_pml2 (pt : PageTables) (sz : Nat) :
    ∀ (l : List Nat) (d : DirtyBits),
      ((dirtyPml2 pt sz l d).2).pml2_dirty = d.pml2_dirty := by
  intro l
  induction l with
  | nil => intro d; rfl
  | cons i rest ih =>
    intro d
    by_cases h1 : pt.pml2_present i
    · by_cases h2 : sz ≥ SIZE_2MB
      · by_cases h3 : d.pml2_dirty i
        · simp [dirtyPml2, h1, h2, h3, ih, clearPml1Dirty]
        · simp [dirtyPml2, h1, h2, h3, ih]
      · simp [dirtyPml2, h1, h2, ih, dirtySmall_pml2]
    · simp [dirtyPml2, h1, ih]

theorem dirtySubpools_pml2 (pt : PageTables) (sz pml4i : Nat) :
    ∀ (subs : List Nat) (d : DirtyBits),
      ((dirtySubpools pt sz pml4i subs d).2).pml2_dirty = d.pml2_dirty := by
  intro subs
  induction subs with
  | nil => intro d; rfl
  | cons s rest ih =>
    intro d
    by_cases h1 : pt.pml3_present (pml4i <<< 9)
    · simp [dirtySubpools, h1, ih, dirtyPml2_pml2]
    · simp [dirtySubpools, h1, ih]

theorem dirtyPools_pml2 (pt : PageTables) :
    ∀ (pools : List Nat) (d : DirtyBits),
      ((dirtyPools pt pools d).2).pml2_dirty = d.pml2_dirty := by
  intro pools
  induction pools with
  | nil => intro d; rfl
  | cons p rest ih => intro d; simp [dirtyPools, ih, dirtySubpools_pml2]

theorem dirtyPml2_det (pt : PageTables) (sz : Nat)
    (hp : ∀ i, pt.pml1_present i = false) :
    ∀ (l : List Nat) (d e : DirtyBits), d.pml2_dirty = e.pml2_dirty →
      (dirtyPml2 pt sz l d).1 = (dirtyPml2 pt sz l e).1 := by
  intro l
  induction l with
  | nil => intro d e h; rfl
  | cons i rest ih =>
    intro d e h
    by_cases h1 : pt.pml2_present i
    · by_cases h2 : sz ≥ SIZE_2MB
      · by_cases h3 : d.pml2_dirty i = true
        · have h3e : e.pml2_dirty i = true := by rw [← congrFun h i]; exact h3
          have hcl : (clearPml1Dirty d i).pml2_dirty = (clearPml1Dirty e i).pml2_dirty := by
            simpa [clearPml1Dirty] using h
          simp [dirtyPml2, h1, h2, h3, h3e, ih _ _ hcl]
        · have h3e : ¬ e.pml2_dirty i = true := by rw [← congrFun h i]; exact h3
          simp [dirtyPml2, h1, h2, h3, h3e, ih _ _ h]
      · simp [dirtyPml2, h1, h2, dirtySmall_absent pt sz hp, ih _ _ h]
    · simp [dirtyPml2, h1, ih _ _ h]

theorem dirtySubpools_det (pt : PageTables) (sz pml4i : Nat)
    (hp : ∀ i, pt.pml1_present i = false) :
    ∀ (subs : List Nat) (d e : DirtyBits), d.pml2_dirty = e.pml2_dirty →
      (dirtySubpools pt sz pml4i subs d).1 = (dirtySubpools pt sz pml4i subs e).1 := by
  intro subs
  induction subs with
  | nil => intro d e h; rfl
  | cons s rest ih =>
    intro d e h
    by_cases h1 : pt.pml3_present (pml4i <<< 9)
    · have hq : ((dirtyPml2 pt sz ((List.range 512).map
          (fun j => ((pml4i <<< 9) <<< 9) + j)) d).2).pml2_dirty =
          ((dirtyPml2 pt sz ((List.range 512).map
          (fun j => ((pml4i <<< 9) <<< 9) + j)) e).2).pml2_dirty := by
        rw [dirtyPml2_pml2, dirtyPml2_pml2]; exact h
      simp [dirtySubpools, h1, dirtyPml2_det pt sz hp _ _ _ h, ih _ _ hq]
    · simp [dirtySubpools, h1, ih _ _ h]

theorem dirtyPools_det (pt : PageTables)
    (hp : ∀ i, pt.pml1_present i = false) :
    ∀ (pools : List Nat) (d e : DirtyBits), d.pml2_dirty = e.pml2_dirty →
      (dirtyPools pt pools d).1 = (dirtyPools pt pools e).1 := by
  intro pools
  induction pools with
  | nil => intro d e h; rfl
  | cons p rest ih =>
    intro d e h
    have hq : ((dirtySubpools pt (2 <<< (4 + p)) (p + PML4_INDEX OBJECT_HEAP_START)
        (List.range SUBPOOLS_COUNT) d).2).pml2_dirty =
        ((dirtySubpools pt (2 <<< (4 + p)) (p + PML4_INDEX OBJECT_HEAP_START)
        (List.range SUBPOOLS_COUNT) e).2).pml2_dirty := by
      rw [dirtySubpools_pml2, dirtySubpools_pml2]; exact h
    simp [dirtyPools, dirtySubpools_det pt _ _ hp _ _ _ h, ih _ _ hq]

theorem dirtySubpools_skip (pt : PageTables) (sz pml4i : Nat)
    (h : pt.pml3_present (pml4i <<< 9) = false) :
    ∀ (subs : List Nat) (d : DirtyBits), dirtySubpools pt sz pml4i subs d = ([], d) := by
  intro subs
  induction subs with
  | nil => intro d; rfl
  | cons s rest ih => intro d; simp [dirtySubpools, h, ih]

theorem dirtyPools_all_skip (pt : PageTables) (pools : List Nat)
    (h : ∀ p ∈ pools, pt.pml3_present ((p + PML4_INDEX OBJECT_HEAP_START) <<< 9) = false) :
    ∀ d : DirtyBits, dirtyPools pt pools d = ([], d) := by
  induction pools with
  | nil => intro d; rfl
  | cons p rest ih =>
    intro d
    have hp := h p (List.mem_cons_self p rest)
    have hr := ih (fun q hq => h q (List.mem_cons_of_mem _ hq))
    simp [dirtyPools, dirtySubpools_skip pt _ _ hp, hr]

theorem dirtyPools_append (pt : PageTables) :
    ∀ (l1 l2 : List Nat) (d : DirtyBits),
      dirtyPools pt (l1 ++ l2) d =
        ((dirtyPools pt l1 d).1 ++ (dirtyPools pt l2 (dirtyPools pt l1 d).2).1,
         (dirtyPools pt l2 (dirtyPools pt l1 d).2).2) := by
  intro l1
  induction l1 with
  | nil => intro l2 d; simp [dirtyPools]
  | cons p rest ih => intro l2 d; simp [dirtyPools, ih, List.append_assoc]

theorem dirtyPools_cons (pt : PageTables) (p : Nat) (rest : List Nat) (d : DirtyBits) :
    dirtyPools pt (p :: rest) d =
      ((dirtySubpools pt (2 <<< (4 + p)) (p + PML4_INDEX OBJECT_HEAP_START)
          (List.range SUBPOOLS_COUNT) d).1 ++
        (dirtyPools pt rest (dirtySubpools pt (2 <<< (4 + p)) (p + PML4_INDEX OBJECT_HEAP_START)
          (List.range SUBPOOLS_COUNT) d).2).1,
       (dirtyPools pt rest (dirtySubpools pt (2 <<< (4 + p)) (p + PML4_INDEX OBJECT_HEAP_START)
          (List.range SUBPOOLS_COUNT) d).2).2) := rfl

theorem dirtySubpools_cons_present (pt : PageTables) (sz pml4i s : Nat) (rest : List Nat)
    (d : DirtyBits) (h : pt.pml3_present (pml4i <<< 9) = true) :
    dirtySubpools pt sz pml4i (s :: rest) d =
      ((dirtyPml2 pt sz ((List.range 512).map (fun j => ((pml4i <<< 9) <<< 9) + j)) d).1 ++
        (dirtySubpools pt sz pml4i rest
          (dirtyPml2 pt sz ((List.range 512).map (fun j => ((pml4i <<< 9) <<< 9) + j)) d).2).1,
       (dirtySubpools pt sz pml4i rest
          (dirtyPml2 pt sz ((List.range 512).map (fun j => ((pml4i <<< 9) <<< 9) + j)) d).2).2) := by
  simp [dirtySubpools, h]

theorem dirtySubpools_cons_present_fst (pt : PageTables) (sz pml4i s : Nat) (rest : List Nat)
    (d : DirtyBits) (h : pt.pml3_present (pml4i <<< 9) = true) :
    (dirtySubpools pt sz pml4i (s :: rest) d).1 =
      (dirtyPml2 pt sz ((List.range 512).map (fun j => ((pml4i <<< 9) <<< 9) + j)) d).1 ++
      (dirtySubpools pt sz pml4i rest
        (dirtyPml2 pt sz ((List.range 512).map (fun j => ((pml4i <<< 9) <<< 9) + j)) d).2).1 := by
  rw [dirtySubpools_cons_present pt sz pml4i s rest d h]

theorem dirtyRange26 : List.range POOL_COUNT =
    List.range 17 ++ (17 :: [18, 19, 20, 21, 22, 23, 24, 25]) := by decide

theorem dirtySkipLow : ∀ p ∈ List.range 17,
    dirtyPagePT.pml3_present ((p + PML4_INDEX OBJECT_HEAP_START) <<< 9) = false := by decide

theorem dirtySkipHigh : ∀ p ∈ [18, 19, 20, 21, 22, 23, 24, 25],
    dirtyPagePT.pml3_present ((p + PML4_INDEX OBJECT_HEAP_START) <<< 9) = false := by decide

theorem dirtyWalkEq (d : DirtyBits) :
    heap_iterate_dirty_objects dirtyPagePT d =
      dirtyPools dirtyPagePT (List.range 17 ++ (17 :: [18, 19, 20, 21, 22, 23, 24, 25])) d := by
  unfold heap_iterate_dirty_objects
  rw [dirtyRange26]

theorem dirtyPools_append_fst (pt : PageTables) (l1 l2 : List Nat) (d : DirtyBits) :
    (dirtyPools pt (l1 ++ l2) d).1 =
      (dirtyPools pt l1 d).1 ++ (dirtyPools pt l2 (dirtyPools pt l1 d).2).1 := by
  rw [dirtyPools_append]

theorem dirtyPools_append_snd (pt : PageTables) (l1 l2 : List Nat) (d : DirtyBits) :
    (dirtyPools pt (l1 ++ l2) d).2 =
      (dirtyPools pt l2 (dirtyPools pt l1 d).2).2 := by
  rw [dirtyPools_append]

theorem dirtyLowSkip_fst (d : DirtyBits) :
    (dirtyPools dirtyPagePT (List.range 17) d).1 = [] := by
  rw [dirtyPools_all_skip dirtyPagePT (List.range 17) dirtySkipLow]

theorem dirtyLowSkip_snd (d : DirtyBits) :
    (dirtyPools dirtyPagePT (List.range 17) d).2 = d := by
  rw [dirtyPools_all_skip dirtyPagePT (List.range 17) dirtySkipLow]

theorem dirtyHighSkip_fst (e : DirtyBits) :
    (dirtyPools dirtyPagePT [18, 19, 20, 21, 22, 23, 24, 25] e).1 = [] := by
  rw [dirtyPools_all_skip dirtyPagePT [18, 19, 20, 21, 22, 23, 24, 25] dirtySkipHigh]

theorem dirtyHighSkip_snd (e : DirtyBits) :
    (dirtyPools dirtyPagePT [18, 19, 20, 21, 22, 23, 24, 25] e).2 = e := by
  rw [dirtyPools_all_skip dirtyPagePT [18, 19, 20, 21, 22, 23, 24, 25] dirtySkipHigh]

theorem dirtyPools_cons_fst (pt : PageTables) (p : Nat) (rest : List Nat) (d : DirtyBits) :
    (dirtyPools pt (p :: rest) d).1 =
      (dirtySubpools pt (2 <<< (4 + p)) (p + PML4_INDEX OBJECT_HEAP_START)
        (List.range SUBPOOLS_COUNT) d).1 ++
      (dirtyPools pt rest (dirtySubpools pt (2 <<< (4 + p)) (p + PML4_INDEX OBJECT_HEAP_START)
        (List.range SUBPOOLS_COUNT) d).2).1 := by
  rw [dirtyPools_cons]

theorem dirtyPools_cons_snd (pt : PageTables) (p : Nat) (rest : List Nat) (d : DirtyBits) :
    (dirtyPools pt (p :: rest) d).2 =
      (dirtyPools pt rest (dirtySubpools pt (2 <<< (4 + p)) (p + PML4_INDEX OBJECT_HEAP_START)
        (List.range SUBPOOLS_COUNT) d).2).2 := by
  rw [dirtyPools_cons]

/-- The visited list of a full dirty walk over the C4 page tables: only
pool 17 examines a present subpool-0 index, so the walk visits what the
pool 17 subpool loop visits. -/
theorem heapDirty_fst (d : DirtyBits) :
    (heap_iterate_dirty_objects dirtyPagePT d).1 =
      (dirtySubpools dirtyPagePT (2 <<< (4 + 17)) (17 + PML4_INDEX OBJECT_HEAP_START)
        (List.range SUBPOOLS_COUNT) d).1 := by
  rw [dirtyWalkEq, dirtyPools_append_fst, dirtyLowSkip_fst, dirtyLowSkip_snd,
    dirtyPools_cons_fst, dirtyHighSkip_fst]
  exact (List.nil_append _).trans (List.append_nil _)

/-- The dirty-bit state after a full dirty walk over the C4 page
tables equals the state after the pool 17 subpool loop. -/
theorem heapDirty_snd (d : DirtyBits) :
    (heap_iterate_dirty_objects dirtyPagePT d).2 =
      (dirtySubpools dirtyPagePT (2 <<< (4 + 17)) (17 + PML4_INDEX OBJECT_HEAP_START)
        (List.range SUBPOOLS_COUNT) d).2 := by
  rw [dirtyWalkEq, dirtyPools_append_snd, dirtyLowSkip_snd, dirtyPools_cons_snd,
    dirtyHighSkip_snd]

set_option maxRecDepth 8000 in
/-- C4.  A write made one 2 MiB page dirty (a 4 MiB size class, so the
PML2 dirty bit is the authoritative one).  The first call of
heap_iterate_dirty_objects visits objects, but it clears
PAGE_TABLE_PML1[pml2i].dirty instead of the PML2 bit it tested, so the
PML2 dirty bit survives the walk and an immediately repeated call with
no intervening write visits exactly the same non-empty object list
again instead of visiting nothing. -/
theorem heap_iterate_dirty_objects_not_idempotent :
    (heap_iterate_dirty_objects dirtyPagePT dirtyPageBits).1 ≠ [] ∧
    ((heap_iterate_dirty_objects dirtyPagePT dirtyPageBits).2).pml2_dirty dirtyPml2Index = true ∧
    (heap_iterate_dirty_objects dirtyPagePT
      (heap_iterate_dirty_objects dirtyPagePT dirtyPageBits).2).1 =
      (heap_iterate_dirty_objects dirtyPagePT dirtyPageBits).1 := by
  have hp1 : ∀ i, dirtyPagePT.pml1_present i = false := fun i => rfl
  have h17 : dirtyPagePT.pml3_present ((17 + PML4_INDEX OBJECT_HEAP_START) <<< 9) = true := by
    decide
  -- the state after the walk keeps every PML2 dirty bit
  have hkeep : ((heap_iterate_dirty_objects dirtyPagePT dirtyPageBits).2).pml2_dirty =
      dirtyPageBits.pml2_dirty := by
    rw [heapDirty_snd dirtyPageBits]
    exact dirtySubpools_pml2 dirtyPagePT _ _ _ dirtyPageBits
  refine ⟨?_, ?_, ?_⟩
  · -- the first walk visits the objects of the dirty page
    rw [heapDirty_fst dirtyPageBits]
    obtain ⟨a, l, hl⟩ := List.exists_cons_of_ne_nil
      (show List.range SUBPOOLS_COUNT ≠ [] by decide)
    rw [hl, dirtySubpools_cons_present_fst dirtyPagePT _ _ a l dirtyPageBits h17]
    have hq : (dirtyPml2 dirtyPagePT (2 <<< (4 + 17)) ((List.range 512).map
        (fun j => (((17 + PML4_INDEX OBJECT_HEAP_START) <<< 9) <<< 9) + j))
        dirtyPageBits).1 ≠ [] := by decide
    intro hcontra
    exact hq (List.append_eq_nil.mp hcontra).1
  · rw [congrFun hkeep dirtyPml2Index]; decide
  · rw [heapDirty_fst dirtyPageBits, heapDirty_snd dirtyPageBits,
      heapDirty_fst ((dirtySubpools dirtyPagePT (2 <<< (4 + 17))
        (17 + PML4_INDEX OBJECT_HEAP_START) (List.range SUBPOOLS_COUNT) dirtyPageBits).2)]
    exact dirtySubpools_det dirtyPagePT _ _ hp1 _ _ _
      (by rw [dirtySubpools_pml2])

end Pentagon
